import Mathlib

/-!
# Verification of the expiry-sweep subsystem of `sqlitestore` (cleanup.go)

This file shallowly embeds `cleanup.go` of the `sqlitestore` repository.
The subsystem has two layers:

* the *engine* (`getExpiredSessionsIdsAndCallCallbacks`, `deleteExpiredSessions`):
  one sweep = select the ids of expired rows, for each scanned id load the
  session and invoke the optional pre-delete callback, then delete each
  collected id;
* the *scheduler* (`cleanup` loop started by `StartCleanup`): a loop that on
  each iteration performs a Go `select` over a quit channel and a ticker
  channel.

External collaborators (the SQL database, the store's `load` method, the
prepared delete statement, the store's default `Options`, the registered
callback) live outside `cleanup.go`; they are modelled as an environment
`Env` of oracles that fixes every outcome the database and the store can
produce during one sweep.  The engine is embedded as a pure function from
`Env` to a result together with a trace of observable events (log lines,
`load` calls, callback invocations, delete executions), and the scheduler as
a small-step relation on a loop state, nondeterministic exactly where Go's
`select` is (when several channel cases are ready, Go chooses among them
pseudo-randomly).
-/

/-- Errors returned by the database and the store.  Their content is opaque
to `cleanup.go`, which only tests them against `nil` and logs their text;
a `String` stands in for the Go `error` value. -/
abbrev Err := String

/-- The session attribute bag.  It is opaque to the sweep subsystem
(`cleanup.go` never inspects it); an association list stands in for the Go
`map[interface{}]interface{}`. -/
abbrev SessionValues := List (String × String)

/-- The six cookie-option fields of `gorilla/sessions.Options` that
`getExpiredSessionsIdsAndCallCallbacks` copies from the store's default
options (src/cleanup.go lines 83-90). -/
structure SessOptions where
  Path : String
  MaxAge : Int
  HttpOnly : Bool
  Secure : Bool
  Domain : String
  SameSite : Int
deriving DecidableEq, Repr

/-- The `gorilla/sessions.Session` record as seen by the sweep subsystem:
an identifier, the cookie/session name it is scoped to, its options and its
attribute bag. -/
structure Session where
  ID : String
  name : String
  Options : SessOptions
  Values : SessionValues
deriving DecidableEq, Repr

/-- Observable events of one sweep, in program order:
log lines written by the engine, calls of the store's `load` method (with
the boolean that, when `true`, bypasses the expiry check — src/cleanup.go
line 91), invocations of the pre-delete callback, and executions of the
prepared delete statement. -/
inductive Event where
  | logPrepareErr (e : Err)
  | logQueryErr (e : Err)
  | logScanErr (e : Err)
  | loadCall (s : Session) (ignoreExpired : Bool)
  | logLoadErr (e : Err)
  | callbackCall (s : Session)
  | deleteExec (id : String)
deriving DecidableEq, Repr

/-- The environment of one sweep: the outcome of every external call the
engine can make.  `prepareErr`/`queryErr` are the results of preparing and
executing the expiry select; `rows` are the rows the cursor yields before
`Next` returns `false`, each either a scanned id or a scan error;
`rowsIterErr` is the error (if any) that made the cursor stop early — the
code never inspects it; `load` is the result of `m.load` keyed by session id
and by the ignore-expired flag; `hasCallback` says whether
`m.expiredSessionPreDeleteCallback` is non-nil; `deleteRes` is the outcome of
`m.stmtDelete.Exec` keyed by id; `options` are the store's default
`m.Options`. -/
structure Env where
  prepareErr : Option Err
  queryErr : Option Err
  rows : List (Except Err String)
  rowsIterErr : Option Err
  load : String → Bool → Except Err SessionValues
  hasCallback : Bool
  deleteRes : String → Option Err
  options : SessOptions

/-- The fresh session built for a scanned id (src/cleanup.go lines 81-90):
`sessions.NewSession(m, sessionName)` scoped to `sessionName` with an empty
attribute bag, its `ID` set to the scanned id and the six option fields
copied from the store's default options. -/
def mkCleanupSession (env : Env) (sessionName id : String) : Session :=
  { ID := id
    name := sessionName
    Options :=
      { Path := env.options.Path
        MaxAge := env.options.MaxAge
        HttpOnly := env.options.HttpOnly
        Secure := env.options.Secure
        Domain := env.options.Domain
        SameSite := env.options.SameSite }
    Values := [] }

/-- Modelled from the spec: the store's `load` operation is code of this
repository outside `src/` ("load its persisted attribute bag from the store");
it populates the session's attribute bag and leaves identifier, name and
options unchanged.  `loadedSession` is the session as it stands after a
successful `m.load(session, true)` (src/cleanup.go line 91). -/
def loadedSession (env : Env) (sessionName id : String) : Session :=
  match env.load id true with
  | Except.ok vals => { mkCleanupSession env sessionName id with Values := vals }
  | Except.error _ => mkCleanupSession env sessionName id

/-- The row loop of `getExpiredSessionsIdsAndCallCallbacks`
(src/cleanup.go lines 67-101): for each row yielded by `Next`, scan it
(on error: log and continue), append the id to the slice, build the fresh
session, load it with the ignore-expired flag (on error: log and continue),
and invoke the pre-delete callback if one is set.  Returns the collected id
list and the event trace of the loop. -/
def processRows (env : Env) (sessionName : String) :
    List (Except Err String) → List String × List Event
  | [] => ([], [])
  | Except.error e :: rest =>
      ((processRows env sessionName rest).1,
       Event.logScanErr e :: (processRows env sessionName rest).2)
  | Except.ok id :: rest =>
      match env.load (mkCleanupSession env sessionName id).ID true with
      | Except.error e =>
          (id :: (processRows env sessionName rest).1,
           Event.loadCall (mkCleanupSession env sessionName id) true ::
             Event.logLoadErr e :: (processRows env sessionName rest).2)
      | Except.ok vals =>
          if env.hasCallback then
            (id :: (processRows env sessionName rest).1,
             Event.loadCall (mkCleanupSession env sessionName id) true ::
               Event.callbackCall
                 { mkCleanupSession env sessionName id with Values := vals } ::
               (processRows env sessionName rest).2)
          else
            (id :: (processRows env sessionName rest).1,
             Event.loadCall (mkCleanupSession env sessionName id) true ::
               (processRows env sessionName rest).2)

/-- `getExpiredSessionsIdsAndCallCallbacks` (src/cleanup.go lines 50-104):
prepare the expiry select (on error: log and return it), execute it (on
error: log and return it), then run the row loop; the cursor error that may
have ended the iteration (`env.rowsIterErr`) is never consulted.  Returns
the collected ids (or the first select-phase error) and the sweep's event
trace so far. -/
def getExpiredSessionsIdsAndCallCallbacks (env : Env) (sessionName : String) :
    Except Err (List String) × List Event :=
  match env.prepareErr with
  | some e => (Except.error e, [Event.logPrepareErr e])
  | none =>
    match env.queryErr with
    | some e => (Except.error e, [Event.logQueryErr e])
    | none =>
      (Except.ok (processRows env sessionName env.rows).1,
       (processRows env sessionName env.rows).2)

/-- The delete loop of `deleteExpiredSessions` (src/cleanup.go lines
113-119): execute the prepared delete statement for each collected id in
order; the first failing delete aborts the loop and its error is returned. -/
def execDeletes (env : Env) : List String → Except Err Unit × List Event
  | [] => (Except.ok (), [])
  | id :: rest =>
      match env.deleteRes id with
      | some e => (Except.error e, [Event.deleteExec id])
      | none =>
          ((execDeletes env rest).1, Event.deleteExec id :: (execDeletes env rest).2)

/-- `deleteExpiredSessions` (src/cleanup.go lines 107-122): one sweep —
collect the expired ids (calling the callbacks on the way), abort on a
select-phase error, then delete each collected id, aborting on the first
delete error.  Returns the sweep's result and its full event trace. -/
def deleteExpiredSessions (env : Env) (sessionName : String) :
    Except Err Unit × List Event :=
  match getExpiredSessionsIdsAndCallCallbacks env sessionName with
  | (Except.error e, evs) => (Except.error e, evs)
  | (Except.ok ids, evs) => ((execDeletes env ids).1, evs ++ (execDeletes env ids).2)

/-- The ids successfully scanned from the yielded rows, in result order:
exactly the ids the sweep collects for deletion. -/
def scannedIds (rows : List (Except Err String)) : List String :=
  rows.filterMap fun r => match r with
    | Except.ok id => some id
    | Except.error _ => none

/-- The scanned ids whose `load` (with the ignore-expired flag) succeeds:
exactly the rows for which the pre-delete callback fires when one is set. -/
def okLoadedIds (env : Env) (rows : List (Except Err String)) : List String :=
  (scannedIds rows).filter fun id =>
    match env.load id true with
    | Except.ok _ => true
    | Except.error _ => false

/-- The sessions passed to the pre-delete callback, in trace order. -/
def callbackSessions (tr : List Event) : List Session :=
  tr.filterMap fun e => match e with
    | Event.callbackCall s => some s
    | _ => none

/-- The ids for which the delete statement was executed, in trace order. -/
def deletedIds (tr : List Event) : List String :=
  tr.filterMap fun e => match e with
    | Event.deleteExec id => some id
    | _ => none

/-- The arguments of the calls of the store's `load` method, in trace
order. -/
def loadCalls (tr : List Event) : List (Session × Bool) :=
  tr.filterMap fun e => match e with
    | Event.loadCall s b => some (s, b)
    | _ => none

/-- `true` exactly on delete-statement executions. -/
def Event.isDelete : Event → Bool
  | Event.deleteExec _ => true
  | _ => false

/-- Go's `time.Duration`: a number of nanoseconds (`int64`).  `StartCleanup`
only compares it with zero, so a plain `Int` is a faithful model. -/
abbrev Duration := Int

/-- Go's `time.Second` in nanoseconds. -/
def timeSecond : Duration := 1000000000

/-- Go's `time.Minute` in nanoseconds. -/
def timeMinute : Duration := 60 * timeSecond

/-- `var defaultInterval = time.Minute * 5` (src/cleanup.go line 10). -/
def defaultInterval : Duration := timeMinute * 5

/-- The interval substitution at the start of `StartCleanup`
(src/cleanup.go lines 16-18): the ticker of the background loop is created
with the given interval unless it is ≤ 0, in which case `defaultInterval`
is used. -/
def StartCleanup.effectiveInterval (interval : Duration) : Duration :=
  if interval ≤ 0 then defaultInterval else interval

/-- The state of the `cleanup` loop (src/cleanup.go lines 26-47) together
with its two channels: whether a quit signal and a ticker tick are pending
(ready to be received), whether the deferred `ticker.Stop()` has run, how
many acknowledgments have been sent on `done`, whether the goroutine has
returned, how many sweep errors have been logged (line 43) and how many
sweeps have been run. -/
structure LoopState where
  quitPending : Bool
  tickPending : Bool
  tickerStopped : Bool
  doneSent : Nat
  terminated : Bool
  errorsLogged : Nat
  sweepsRun : Nat
deriving DecidableEq, Repr

/-- The state after the quit case of the `select` (src/cleanup.go lines
35-38): receive from `quit`, send one acknowledgment on `done`, return —
which runs the deferred `ticker.Stop()` — and terminate. -/
def quitResult (s : LoopState) : LoopState :=
  { s with quitPending := false
           doneSent := s.doneSent + 1
           tickerStopped := true
           terminated := true }

/-- The state after the tick case of the `select` (src/cleanup.go lines
39-44): receive the tick, run `deleteExpiredSessions` against the current
environment `env`, log its error if it returned one, and loop. -/
def tickResult (env : Env) (sessionName : String) (s : LoopState) : LoopState :=
  { s with tickPending := false
           sweepsRun := s.sweepsRun + 1
           errorsLogged := s.errorsLogged +
             (match (deleteExpiredSessions env sessionName).1 with
              | Except.error _ => 1
              | Except.ok _ => 0) }

/-- One iteration of the `cleanup` loop's `select` (src/cleanup.go lines
33-46).  Go's `select` receives from whichever ready case it chooses: when
only one of `quit`/`ticker.C` is ready that case runs, and when both are
ready Go picks one of the two by uniform pseudo-random selection — so both
constructors apply and the relation is nondeterministic there.  The tick
case is parameterised by the environment `env` the sweep runs against,
which may differ from tick to tick as the database changes. -/
inductive CleanupStep (sessionName : String) : LoopState → LoopState → Prop
  | quit {s : LoopState} :
      s.terminated = false → s.quitPending = true →
      CleanupStep sessionName s (quitResult s)
  | tick {s : LoopState} (env : Env) :
      s.terminated = false → s.tickPending = true →
      CleanupStep sessionName s (tickResult env sessionName s)

/-! ## Basic facts about the fresh session -/

@[simp] theorem mkCleanupSession_ID (env : Env) (n id : String) :
    (mkCleanupSession env n id).ID = id := rfl

@[simp] theorem mkCleanupSession_name (env : Env) (n id : String) :
    (mkCleanupSession env n id).name = n := rfl

@[simp] theorem mkCleanupSession_Values (env : Env) (n id : String) :
    (mkCleanupSession env n id).Values = [] := rfl

/-! ## Structural lemmas about the row loop -/

theorem processRows_fst (env : Env) (n : String) :
    ∀ l : List (Except Err String), (processRows env n l).1 = scannedIds l := by
  intro l
  induction l with
  | nil => rfl
  | cons r rest ih =>
      cases r with
      | error e =>
          simpa [processRows, scannedIds, List.filterMap_cons] using ih
      | ok id =>
          simp only [processRows, scannedIds, List.filterMap_cons]
          cases h : env.load (mkCleanupSession env n id).ID true with
          | error e => simpa [scannedIds] using ih
          | ok vals =>
              by_cases hcb : env.hasCallback <;>
                simp [hcb, scannedIds] <;> exact ih

theorem processRows_append (env : Env) (n : String)
    (l₁ l₂ : List (Except Err String)) :
    processRows env n (l₁ ++ l₂) =
      ((processRows env n l₁).1 ++ (processRows env n l₂).1,
       (processRows env n l₁).2 ++ (processRows env n l₂).2) := by
  induction l₁ with
  | nil => simp [processRows]
  | cons r rest ih =>
      cases r with
      | error e => simp [processRows, ih]
      | ok id =>
          simp only [List.cons_append, processRows]
          cases h : env.load (mkCleanupSession env n id).ID true with
          | error e => simp [ih]
          | ok vals =>
              by_cases hcb : env.hasCallback <;> simp [hcb, ih]

theorem callbackSessions_processRows (env : Env) (n : String)
    (hcb : env.hasCallback = true) :
    ∀ l : List (Except Err String),
      callbackSessions (processRows env n l).2 =
        (okLoadedIds env l).map (loadedSession env n) := by
  intro l
  induction l with
  | nil => rfl
  | cons r rest ih =>
      cases r with
      | error e =>
          simpa [processRows, callbackSessions, okLoadedIds, scannedIds,
            List.filterMap_cons] using ih
      | ok id =>
          simp only [processRows, mkCleanupSession_ID]
          cases h : env.load id true with
          | error e =>
              simpa [callbackSessions, okLoadedIds, scannedIds,
                List.filterMap_cons, List.filter_cons, h] using ih
          | ok vals =>
              simpa [hcb, callbackSessions, okLoadedIds, scannedIds,
                List.filterMap_cons, List.filter_cons, h,
                loadedSession] using ih

theorem callbackSessions_processRows_none (env : Env) (n : String)
    (hcb : env.hasCallback = false) :
    ∀ l : List (Except Err String),
      callbackSessions (processRows env n l).2 = [] := by
  intro l
  induction l with
  | nil => rfl
  | cons r rest ih =>
      cases r with
      | error e => simpa [processRows, callbackSessions] using ih
      | ok id =>
          simp only [processRows, mkCleanupSession_ID]
          cases h : env.load id true with
          | error e => simpa [callbackSessions] using ih
          | ok vals => simpa [hcb, callbackSessions] using ih

theorem loadCalls_processRows (env : Env) (n : String) :
    ∀ l : List (Except Err String),
      loadCalls (processRows env n l).2 =
        (scannedIds l).map (fun id => (mkCleanupSession env n id, true)) := by
  intro l
  induction l with
  | nil => rfl
  | cons r rest ih =>
      cases r with
      | error e =>
          simpa [processRows, loadCalls, scannedIds, List.filterMap_cons] using ih
      | ok id =>
          simp only [processRows, mkCleanupSession_ID]
          cases h : env.load id true with
          | error e =>
              simpa [loadCalls, scannedIds, List.filterMap_cons] using ih
          | ok vals =>
              by_cases hcb : env.hasCallback <;>
                simpa [hcb, loadCalls, scannedIds, List.filterMap_cons] using ih

theorem processRows_no_delete (env : Env) (n : String) :
    ∀ l : List (Except Err String),
      ∀ e ∈ (processRows env n l).2, e.isDelete = false := by
  intro l
  induction l with
  | nil => intro e he; simp [processRows] at he
  | cons r rest ih =>
      cases r with
      | error e0 =>
          intro e he
          simp only [processRows, List.mem_cons] at he
          rcases he with rfl | he
          · rfl
          · exact ih e he
      | ok id =>
          intro e he
          simp only [processRows, mkCleanupSession_ID] at he
          cases h : env.load id true with
          | error e0 =>
              rw [h] at he
              simp only [List.mem_cons] at he
              rcases he with rfl | rfl | he
              · rfl
              · rfl
              · exact ih e he
          | ok vals =>
              rw [h] at he
              by_cases hcb : env.hasCallback <;>
                simp only [hcb, if_true, if_false, List.mem_cons,
                  Bool.false_eq_true] at he
              · rcases he with rfl | rfl | he
                · rfl
                · rfl
                · exact ih e he
              · rcases he with rfl | he
                · rfl
                · exact ih e he

/-! ## Structural lemmas about the delete loop -/

theorem execDeletes_all_ok (env : Env) :
    ∀ l : List String, (∀ id ∈ l, env.deleteRes id = none) →
      execDeletes env l = (Except.ok (), l.map Event.deleteExec) := by
  intro l
  induction l with
  | nil => intro _; rfl
  | cons id rest ih =>
      intro h
      have hid : env.deleteRes id = none := h id (by simp)
      have hrest : ∀ x ∈ rest, env.deleteRes x = none := by
        intro x hx; exact h x (by simp [hx])
      simp [execDeletes, hid, ih hrest]

theorem execDeletes_first_fail (env : Env) (id : String) (e : Err)
    (hid : env.deleteRes id = some e) :
    ∀ l₁ : List String, (∀ x ∈ l₁, env.deleteRes x = none) →
      ∀ l₂ : List String,
        execDeletes env (l₁ ++ id :: l₂) =
          (Except.error e, (l₁ ++ [id]).map Event.deleteExec) := by
  intro l₁
  induction l₁ with
  | nil => intro _ l₂; simp [execDeletes, hid]
  | cons x rest ih =>
      intro h l₂
      have hx : env.deleteRes x = none := h x (by simp)
      have hrest : ∀ y ∈ rest, env.deleteRes y = none := by
        intro y hy; exact h y (by simp [hy])
      simp [execDeletes, hx, ih hrest l₂]

theorem execDeletes_ok_iff (env : Env) :
    ∀ l : List String,
      ((execDeletes env l).1 = Except.ok () ↔ ∀ id ∈ l, env.deleteRes id = none) := by
  intro l
  induction l with
  | nil => simp [execDeletes]
  | cons id rest ih =>
      constructor
      · intro h
        cases hid : env.deleteRes id with
        | some e => simp [execDeletes, hid] at h
        | none =>
            intro x hx
            simp only [List.mem_cons] at hx
            rcases hx with rfl | hx
            · exact hid
            · simp only [execDeletes, hid] at h
              exact (ih.mp h) x hx
      · intro h
        have hid : env.deleteRes id = none := h id (by simp)
        have hrest : ∀ x ∈ rest, env.deleteRes x = none := by
          intro x hx; exact h x (by simp [hx])
        simp [execDeletes, hid, ih.mpr hrest]

theorem execDeletes_all_delete (env : Env) :
    ∀ l : List String, ∀ ev ∈ (execDeletes env l).2, ev.isDelete = true := by
  intro l
  induction l with
  | nil => intro ev hev; simp [execDeletes] at hev
  | cons id rest ih =>
      intro ev hev
      cases hid : env.deleteRes id with
      | some e =>
          simp only [execDeletes, hid, List.mem_singleton] at hev
          subst hev; rfl
      | none =>
          simp only [execDeletes, hid, List.mem_cons] at hev
          rcases hev with rfl | hev
          · rfl
          · exact ih ev hev

@[simp] theorem deletedIds_map_deleteExec (l : List String) :
    deletedIds (l.map Event.deleteExec) = l := by
  induction l with
  | nil => rfl
  | cons id rest ih => simp [deletedIds, List.filterMap_cons] at *; exact ih

/-! ## Unfolding lemmas for one sweep -/

theorem deleteExpiredSessions_prepare_fail (env : Env) (n : String) (e : Err)
    (h : env.prepareErr = some e) :
    deleteExpiredSessions env n = (Except.error e, [Event.logPrepareErr e]) := by
  simp [deleteExpiredSessions, getExpiredSessionsIdsAndCallCallbacks, h]

theorem deleteExpiredSessions_query_fail (env : Env) (n : String) (e : Err)
    (hp : env.prepareErr = none) (hq : env.queryErr = some e) :
    deleteExpiredSessions env n = (Except.error e, [Event.logQueryErr e]) := by
  simp [deleteExpiredSessions, getExpiredSessionsIdsAndCallCallbacks, hp, hq]

theorem getExpired_select_ok (env : Env) (n : String)
    (hp : env.prepareErr = none) (hq : env.queryErr = none) :
    getExpiredSessionsIdsAndCallCallbacks env n =
      (Except.ok (scannedIds env.rows), (processRows env n env.rows).2) := by
  simp [getExpiredSessionsIdsAndCallCallbacks, hp, hq, processRows_fst]

theorem deleteExpiredSessions_select_ok (env : Env) (n : String)
    (hp : env.prepareErr = none) (hq : env.queryErr = none) :
    deleteExpiredSessions env n =
      ((execDeletes env (scannedIds env.rows)).1,
       (processRows env n env.rows).2 ++
         (execDeletes env (scannedIds env.rows)).2) := by
  rw [deleteExpiredSessions, getExpired_select_ok env n hp hq]

/-! ## A generic ordering lemma: an element of the first block of an
append comes strictly before an element of the second block. -/

theorem append_blocks_lt {α : Type} (l₁ l₂ : List α) (P Q : α → Prop)
    (h₁ : ∀ a ∈ l₂, ¬ P a) (h₂ : ∀ a ∈ l₁, ¬ Q a)
    {i j : Nat} {a b : α}
    (ha : (l₁ ++ l₂)[i]? = some a) (hb : (l₁ ++ l₂)[j]? = some b)
    (hPa : P a) (hQb : Q b) : i < j := by
  have hi : i < l₁.length := by
    by_contra hge
    rw [List.getElem?_append, if_neg hge] at ha
    exact h₁ a (List.getElem?_mem ha) hPa
  have hj : l₁.length ≤ j := by
    by_contra hlt
    push_neg at hlt
    rw [List.getElem?_append, if_pos hlt] at hb
    exact h₂ b (List.getElem?_mem hb) hQb
  exact lt_of_lt_of_le hi hj

/-! ## Further helper lemmas -/

theorem loadedSession_ID (env : Env) (n id : String) :
    (loadedSession env n id).ID = id := by
  unfold loadedSession
  cases env.load id true <;> rfl

theorem loadedSession_name (env : Env) (n id : String) :
    (loadedSession env n id).name = n := by
  unfold loadedSession
  cases env.load id true <;> rfl

theorem loadedSession_Options (env : Env) (n id : String) :
    (loadedSession env n id).Options = (mkCleanupSession env n id).Options := by
  unfold loadedSession
  cases env.load id true <;> rfl

theorem deletedIds_processRows (env : Env) (n : String) :
    ∀ l : List (Except Err String), deletedIds (processRows env n l).2 = [] := by
  intro l
  induction l with
  | nil => rfl
  | cons r rest ih =>
      cases r with
      | error e => simpa [processRows, deletedIds] using ih
      | ok id =>
          simp only [processRows]
          cases h : env.load (mkCleanupSession env n id).ID true with
          | error e => simpa [deletedIds] using ih
          | ok vals =>
              by_cases hcb : env.hasCallback <;> simpa [hcb, deletedIds] using ih

theorem callbackSessions_execDeletes (env : Env) :
    ∀ l : List String, callbackSessions (execDeletes env l).2 = [] := by
  intro l
  induction l with
  | nil => rfl
  | cons id rest ih =>
      cases h : env.deleteRes id with
      | some e => simp [execDeletes, h, callbackSessions]
      | none => simpa [execDeletes, h, callbackSessions] using ih

theorem loadCalls_execDeletes (env : Env) :
    ∀ l : List String, loadCalls (execDeletes env l).2 = [] := by
  intro l
  induction l with
  | nil => rfl
  | cons id rest ih =>
      cases h : env.deleteRes id with
      | some e => simp [execDeletes, h, loadCalls]
      | none => simpa [execDeletes, h, loadCalls] using ih

theorem processRows_env_agnostic (env env' : Env)
    (hl : env'.load = env.load) (hcb : env'.hasCallback = env.hasCallback)
    (ho : env'.options = env.options) (n : String) :
    ∀ l, processRows env' n l = processRows env n l := by
  intro l
  induction l with
  | nil => rfl
  | cons r rest ih =>
      cases r with
      | error e => simp [processRows, ih]
      | ok id =>
          have hses : mkCleanupSession env' n id = mkCleanupSession env n id := by
            simp [mkCleanupSession, ho]
          simp only [processRows, hses, hl, hcb, ih]

theorem execDeletes_env_agnostic (env env' : Env)
    (hd : env'.deleteRes = env.deleteRes) :
    ∀ l, execDeletes env' l = execDeletes env l := by
  intro l
  induction l with
  | nil => rfl
  | cons id rest ih => simp only [execDeletes, hd, ih]

theorem deleteExpiredSessions_fst_env_agnostic (env env' : Env) (n : String)
    (hp : env'.prepareErr = env.prepareErr) (hq : env'.queryErr = env.queryErr)
    (hr : scannedIds env'.rows = scannedIds env.rows)
    (hd : env'.deleteRes = env.deleteRes) :
    (deleteExpiredSessions env' n).1 = (deleteExpiredSessions env n).1 := by
  cases h1 : env.prepareErr with
  | some e =>
      rw [deleteExpiredSessions_prepare_fail env n e h1,
        deleteExpiredSessions_prepare_fail env' n e (hp.trans h1)]
  | none =>
      cases h2 : env.queryErr with
      | some e =>
          rw [deleteExpiredSessions_query_fail env n e h1 h2,
            deleteExpiredSessions_query_fail env' n e (hp.trans h1) (hq.trans h2)]
      | none =>
          rw [deleteExpiredSessions_select_ok env n h1 h2,
            deleteExpiredSessions_select_ok env' n (hp.trans h1) (hq.trans h2)]
          simp only
          rw [hr, execDeletes_env_agnostic env env' hd]

@[simp] theorem deletedIds_append (a b : List Event) :
    deletedIds (a ++ b) = deletedIds a ++ deletedIds b := by
  simp [deletedIds, List.filterMap_append]

@[simp] theorem callbackSessions_append (a b : List Event) :
    callbackSessions (a ++ b) = callbackSessions a ++ callbackSessions b := by
  simp [callbackSessions, List.filterMap_append]

@[simp] theorem loadCalls_append (a b : List Event) :
    loadCalls (a ++ b) = loadCalls a ++ loadCalls b := by
  simp [loadCalls, List.filterMap_append]

/-! ## Concrete environments used to witness the claim theorems -/

/-- Store options used by the witness environments. -/
def optsA : SessOptions :=
  { Path := "/", MaxAge := 60, HttpOnly := true, Secure := false,
    Domain := "example", SameSite := 1 }

/-- Load oracle of the witness environments: loading session "b" fails
(a corrupt row), any other session loads with a one-entry attribute bag. -/
def loadA : String → Bool → Except Err SessionValues :=
  fun id _ => if id = "b" then Except.error "corrupt" else Except.ok [("k", "v")]

/-- A witness environment: select succeeds; the cursor yields a good row
"a", a row whose scan fails, and good rows "b" (whose load fails) and "c";
a pre-delete callback is registered; every delete succeeds. -/
def envA : Env :=
  { prepareErr := none
    queryErr := none
    rows := [Except.ok "a", Except.error "badrow", Except.ok "b", Except.ok "c"]
    rowsIterErr := none
    load := loadA
    hasCallback := true
    deleteRes := fun _ => none
    options := optsA }

/-- `envA` with a failing statement preparation. -/
def envPrep : Env := { envA with prepareErr := some "pe" }

/-- `envA` with a failing select query. -/
def envQuery : Env := { envA with queryErr := some "qe" }

/-- `envA` with a failing delete for id "b". -/
def envDel : Env :=
  { envA with deleteRes := fun id => if id = "b" then some "de" else none }

/-! ## The claims -/

/-- C6: `StartCleanup` substitutes the 5-minute `defaultInterval` for every
interval ≤ 0 and keeps every positive interval unchanged
(src/cleanup.go lines 10, 16-18). -/
theorem C6_interval_default :
    (∀ interval : Duration, interval ≤ 0 →
        StartCleanup.effectiveInterval interval = defaultInterval ∧
        defaultInterval = 5 * timeMinute) ∧
    (∀ interval : Duration, 0 < interval →
        StartCleanup.effectiveInterval interval = interval) := by
  constructor
  · intro i hi
    constructor
    · simp [StartCleanup.effectiveInterval, hi]
    · simp [defaultInterval, timeMinute, timeSecond]
  · intro i hi
    simp [StartCleanup.effectiveInterval, not_le.mpr hi]

/-- Witness for C6: interval -3 and interval 0 fall back to the default,
interval 7 is kept. -/
theorem C6_witness :
    StartCleanup.effectiveInterval (-3) = defaultInterval ∧
    StartCleanup.effectiveInterval 0 = defaultInterval ∧
    StartCleanup.effectiveInterval 7 = 7 :=
  ⟨(C6_interval_default.1 (-3) (by norm_num)).1,
   (C6_interval_default.1 0 le_rfl).1,
   C6_interval_default.2 7 (by norm_num)⟩

/-- C5: a sweep aborts immediately with the prepare or query error, having
executed no delete (its whole trace is the one log line); it returns `ok`
iff the select succeeded and the delete of every collected id succeeded;
and the load outcomes (and whether a callback is registered) never affect
the returned error (src/cleanup.go lines 50-63, 107-122). -/
theorem C5_sweep_error_contract (env : Env) (n : String) :
    (∀ e : Err, env.prepareErr = some e →
        deleteExpiredSessions env n = (Except.error e, [Event.logPrepareErr e])) ∧
    (∀ e : Err, env.prepareErr = none → env.queryErr = some e →
        deleteExpiredSessions env n = (Except.error e, [Event.logQueryErr e])) ∧
    ((deleteExpiredSessions env n).1 = Except.ok () ↔
        env.prepareErr = none ∧ env.queryErr = none ∧
        ∀ id ∈ scannedIds env.rows, env.deleteRes id = none) ∧
    (∀ (f : String → Bool → Except Err SessionValues) (b : Bool),
        (deleteExpiredSessions { env with load := f, hasCallback := b } n).1 =
          (deleteExpiredSessions env n).1) := by
  refine ⟨?_, ?_, ?_, ?_⟩
  · intro e he
    exact deleteExpiredSessions_prepare_fail env n e he
  · intro e hp hq
    exact deleteExpiredSessions_query_fail env n e hp hq
  · cases hp : env.prepareErr with
    | some e =>
        rw [deleteExpiredSessions_prepare_fail env n e hp]
        simp [hp]
    | none =>
        cases hq : env.queryErr with
        | some e =>
            rw [deleteExpiredSessions_query_fail env n e hp hq]
            simp [hq]
        | none =>
            rw [deleteExpiredSessions_select_ok env n hp hq]
            simp [hp, hq, execDeletes_ok_iff env (scannedIds env.rows)]
  · intro f b
    exact deleteExpiredSessions_fst_env_agnostic env
      { env with load := f, hasCallback := b } n rfl rfl rfl rfl

/-- Witness for C5: the three abort/return cases at the concrete witness
environments. -/
theorem C5_witness :
    deleteExpiredSessions envPrep "s" =
      (Except.error "pe", [Event.logPrepareErr "pe"]) ∧
    deleteExpiredSessions envQuery "s" =
      (Except.error "qe", [Event.logQueryErr "qe"]) ∧
    ((deleteExpiredSessions envA "s").1 = Except.ok () ↔
        envA.prepareErr = none ∧ envA.queryErr = none ∧
        ∀ id ∈ scannedIds envA.rows, envA.deleteRes id = none) ∧
    (deleteExpiredSessions
        { envA with load := fun _ _ => Except.error "x", hasCallback := false } "s").1 =
      (deleteExpiredSessions envA "s").1 :=
  ⟨(C5_sweep_error_contract envPrep "s").1 "pe" rfl,
   (C5_sweep_error_contract envQuery "s").2.1 "qe" rfl rfl,
   (C5_sweep_error_contract envA "s").2.2.1,
   (C5_sweep_error_contract envA "s").2.2.2 (fun _ _ => Except.error "x") false⟩

/-- C10: the cursor error that ends the row iteration early is never
inspected: the sweep is unchanged under any value of it, the select phase
returns `ok` with the partial id list the cursor yielded, and (when the
deletes succeed) exactly those partial ids are deleted — only prepare and
query errors can abort the select phase (src/cleanup.go lines 67-104). -/
theorem C10_cursor_error_ignored (env : Env) (n : String) (x : Option Err)
    (hp : env.prepareErr = none) (hq : env.queryErr = none) :
    deleteExpiredSessions { env with rowsIterErr := x } n =
      deleteExpiredSessions env n ∧
    (getExpiredSessionsIdsAndCallCallbacks env n).1 =
      Except.ok (scannedIds env.rows) ∧
    ((∀ id ∈ scannedIds env.rows, env.deleteRes id = none) →
      (deleteExpiredSessions env n).1 = Except.ok () ∧
      deletedIds (deleteExpiredSessions env n).2 = scannedIds env.rows) := by
  refine ⟨?_, ?_, ?_⟩
  · rw [deleteExpiredSessions_select_ok env n hp hq,
      deleteExpiredSessions_select_ok { env with rowsIterErr := x } n hp hq,
      processRows_env_agnostic env { env with rowsIterErr := x } rfl rfl rfl n,
      execDeletes_env_agnostic env { env with rowsIterErr := x } rfl]
  · rw [getExpired_select_ok env n hp hq]
  · intro hdel
    rw [deleteExpiredSessions_select_ok env n hp hq,
      execDeletes_all_ok env (scannedIds env.rows) hdel]
    exact ⟨rfl, by simp [deletedIds_processRows]⟩

/-- Witness for C10 at `envA` with an injected cursor error. -/
theorem C10_witness :
    deleteExpiredSessions { envA with rowsIterErr := some "cursor" } "s" =
      deleteExpiredSessions envA "s" ∧
    (getExpiredSessionsIdsAndCallCallbacks envA "s").1 =
      Except.ok (scannedIds envA.rows) ∧
    ((∀ id ∈ scannedIds envA.rows, envA.deleteRes id = none) →
      (deleteExpiredSessions envA "s").1 = Except.ok () ∧
      deletedIds (deleteExpiredSessions envA "s").2 = scannedIds envA.rows) :=
  C10_cursor_error_ignored envA "s" (some "cursor") rfl rfl

/-- C7: a row whose scan fails is only logged and skipped entirely: the
collected ids are those of the remaining rows, the select-phase trace is the
surrounding rows' trace with just the one log line inserted, the returned
error of the sweep is unaffected, and no callback stems from the bad row
(src/cleanup.go lines 67-78). -/
theorem C7_scan_error_skipped (env : Env) (n : String) (e : Err)
    (l₁ l₂ : List (Except Err String))
    (hp : env.prepareErr = none) (hq : env.queryErr = none) :
    scannedIds (l₁ ++ Except.error e :: l₂) = scannedIds (l₁ ++ l₂) ∧
    getExpiredSessionsIdsAndCallCallbacks
        { env with rows := l₁ ++ Except.error e :: l₂ } n =
      (Except.ok (scannedIds (l₁ ++ l₂)),
       (processRows env n l₁).2 ++ Event.logScanErr e :: (processRows env n l₂).2) ∧
    (deleteExpiredSessions { env with rows := l₁ ++ Except.error e :: l₂ } n).1 =
      (deleteExpiredSessions { env with rows := l₁ ++ l₂ } n).1 ∧
    callbackSessions (processRows env n (l₁ ++ Except.error e :: l₂)).2 =
      callbackSessions (processRows env n (l₁ ++ l₂)).2 := by
  have hscan : scannedIds (l₁ ++ Except.error e :: l₂) = scannedIds (l₁ ++ l₂) := by
    simp [scannedIds, List.filterMap_append, List.filterMap_cons]
  refine ⟨hscan, ?_, ?_, ?_⟩
  · rw [getExpired_select_ok { env with rows := l₁ ++ Except.error e :: l₂ } n hp hq,
      processRows_env_agnostic env { env with rows := l₁ ++ Except.error e :: l₂ }
        rfl rfl rfl n]
    show (Except.ok (scannedIds (l₁ ++ Except.error e :: l₂)),
      (processRows env n (l₁ ++ Except.error e :: l₂)).2) = _
    rw [hscan, processRows_append env n l₁ (Except.error e :: l₂)]
    simp [processRows]
  · exact deleteExpiredSessions_fst_env_agnostic
      { env with rows := l₁ ++ l₂ } { env with rows := l₁ ++ Except.error e :: l₂ }
      n rfl rfl hscan rfl
  · rw [processRows_append env n l₁ (Except.error e :: l₂),
      processRows_append env n l₁ l₂]
    simp [processRows, callbackSessions, List.filterMap_cons]

/-- Witness for C7 at `envA`'s rows: the scan-error row between "a" and
"b","c" is only logged and skipped. -/
theorem C7_witness :
    scannedIds ([Except.ok "a"] ++ Except.error "badrow" :: [Except.ok "b", Except.ok "c"]) =
      scannedIds ([Except.ok "a"] ++ [Except.ok "b", Except.ok "c"]) ∧
    getExpiredSessionsIdsAndCallCallbacks
        { envA with rows := [Except.ok "a"] ++ Except.error "badrow" :: [Except.ok "b", Except.ok "c"] } "s" =
      (Except.ok (scannedIds ([Except.ok "a"] ++ [Except.ok "b", Except.ok "c"])),
       (processRows envA "s" [Except.ok "a"]).2 ++
         Event.logScanErr "badrow" :: (processRows envA "s" [Except.ok "b", Except.ok "c"]).2) ∧
    (deleteExpiredSessions
        { envA with rows := [Except.ok "a"] ++ Except.error "badrow" :: [Except.ok "b", Except.ok "c"] } "s").1 =
      (deleteExpiredSessions
        { envA with rows := [Except.ok "a"] ++ [Except.ok "b", Except.ok "c"] } "s").1 ∧
    callbackSessions (processRows envA "s"
        ([Except.ok "a"] ++ Except.error "badrow" :: [Except.ok "b", Except.ok "c"])).2 =
      callbackSessions (processRows envA "s" ([Except.ok "a"] ++ [Except.ok "b", Except.ok "c"])).2 :=
  C7_scan_error_skipped envA "s" "badrow" [Except.ok "a"] [Except.ok "b", Except.ok "c"] rfl rfl

/-- C3: when the delete of the i-th collected id is the first to fail, the
sweep returns that delete error at once: the ids before it and it alone have
had their delete executed, the ids after it have no delete attempted
(src/cleanup.go lines 113-121). -/
theorem C3_first_delete_failure (env : Env) (n : String) (i : Nat)
    (idi : String) (e : Err)
    (hp : env.prepareErr = none) (hq : env.queryErr = none)
    (hbefore : ∀ x ∈ (scannedIds env.rows).take i, env.deleteRes x = none)
    (hi : (scannedIds env.rows)[i]? = some idi)
    (hfail : env.deleteRes idi = some e) :
    (getExpiredSessionsIdsAndCallCallbacks env n).1 =
      Except.ok (scannedIds env.rows) ∧
    (deleteExpiredSessions env n).1 = Except.error e ∧
    deletedIds (deleteExpiredSessions env n).2 = (scannedIds env.rows).take (i + 1) := by
  have hlen : i < (scannedIds env.rows).length := by
    by_contra hge
    push_neg at hge
    rw [List.getElem?_eq_none hge] at hi
    exact Option.noConfusion hi
  have hdrop : (scannedIds env.rows).drop i =
      idi :: (scannedIds env.rows).drop (i + 1) := by
    rw [List.drop_eq_getElem_cons hlen]
    have hg := List.getElem?_eq_getElem hlen
    rw [hg] at hi
    rw [Option.some.inj hi]
  have hsplit : scannedIds env.rows =
      (scannedIds env.rows).take i ++ idi :: (scannedIds env.rows).drop (i + 1) := by
    conv_lhs => rw [← List.take_append_drop i (scannedIds env.rows)]
    rw [hdrop]
  have htake : (scannedIds env.rows).take (i + 1) =
      (scannedIds env.rows).take i ++ [idi] := by
    rw [List.take_succ, hi]
    rfl
  have hexec : execDeletes env (scannedIds env.rows) =
      (Except.error e,
       ((scannedIds env.rows).take i ++ [idi]).map Event.deleteExec) := by
    conv_lhs => rw [hsplit]
    exact execDeletes_first_fail env idi e hfail
      ((scannedIds env.rows).take i) hbefore ((scannedIds env.rows).drop (i + 1))
  refine ⟨?_, ?_, ?_⟩
  · rw [getExpired_select_ok env n hp hq]
  · rw [deleteExpiredSessions_select_ok env n hp hq]
    simp only
    rw [hexec]
  · rw [deleteExpiredSessions_select_ok env n hp hq]
    simp only
    rw [hexec, htake]
    simp only [deletedIds_append, deletedIds_processRows, List.nil_append,
      deletedIds_map_deleteExec]

/-- Witness for C3 at `envDel`: deleting "b" (index 1 of ["a","b","c"])
fails, so "a" and "b" see a delete execution, "c" does not, and the sweep
returns the delete error. -/
theorem C3_witness :
    (getExpiredSessionsIdsAndCallCallbacks envDel "s").1 =
      Except.ok (scannedIds envDel.rows) ∧
    (deleteExpiredSessions envDel "s").1 = Except.error "de" ∧
    deletedIds (deleteExpiredSessions envDel "s").2 =
      (scannedIds envDel.rows).take (1 + 1) :=
  C3_first_delete_failure envDel "s" 1 "b" "de" rfl rfl (by decide) rfl rfl

/-- C4: a scanned id whose load fails is only logged (its per-row trace is
the load call followed by the log line), the callback is never invoked with
that id, the row loop continues with the remaining rows, the id stays in the
collected delete list, and (when the deletes succeed) its row is still
deleted (src/cleanup.go lines 77-100). -/
theorem C4_load_error_still_deleted (env : Env) (n id : String) (e : Err)
    (l₁ l₂ : List (Except Err String))
    (hp : env.prepareErr = none) (hq : env.queryErr = none)
    (hrows : env.rows = l₁ ++ Except.ok id :: l₂)
    (hload : env.load id true = Except.error e) :
    id ∈ scannedIds env.rows ∧
    (getExpiredSessionsIdsAndCallCallbacks env n).1 =
      Except.ok (scannedIds env.rows) ∧
    (getExpiredSessionsIdsAndCallCallbacks env n).2 =
      (processRows env n l₁).2 ++
        Event.loadCall (mkCleanupSession env n id) true :: Event.logLoadErr e ::
          (processRows env n l₂).2 ∧
    (∀ s ∈ callbackSessions (deleteExpiredSessions env n).2, s.ID ≠ id) ∧
    ((∀ x ∈ scannedIds env.rows, env.deleteRes x = none) →
      Event.deleteExec id ∈ (deleteExpiredSessions env n).2) := by
  have hmem : id ∈ scannedIds env.rows := by
    rw [hrows]
    simp [scannedIds, List.filterMap_append, List.filterMap_cons]
  refine ⟨hmem, ?_, ?_, ?_, ?_⟩
  · rw [getExpired_select_ok env n hp hq]
  · rw [getExpired_select_ok env n hp hq]
    simp only
    rw [hrows, processRows_append env n l₁ (Except.ok id :: l₂)]
    simp [processRows, hload]
  · intro s hs
    rw [deleteExpiredSessions_select_ok env n hp hq] at hs
    simp only [callbackSessions_append, callbackSessions_execDeletes,
      List.append_nil] at hs
    cases hcb : env.hasCallback with
    | false =>
        rw [callbackSessions_processRows_none env n hcb env.rows] at hs
        simp at hs
    | true =>
        rw [callbackSessions_processRows env n hcb env.rows] at hs
        simp only [List.mem_map] at hs
        obtain ⟨id', hid', rfl⟩ := hs
        rw [loadedSession_ID]
        intro heq
        subst heq
        simp only [okLoadedIds, List.mem_filter] at hid'
        rw [hload] at hid'
        exact absurd hid'.2 (by simp)
  · intro hdel
    rw [deleteExpiredSessions_select_ok env n hp hq]
    simp only
    rw [execDeletes_all_ok env (scannedIds env.rows) hdel]
    exact List.mem_append_right _ (List.mem_map.mpr ⟨id, hmem, rfl⟩)

/-- Witness for C4 at `envA`: the load of "b" fails with "corrupt"; "b" gets
no callback but is still collected and deleted. -/
theorem C4_witness :
    "b" ∈ scannedIds envA.rows ∧
    (getExpiredSessionsIdsAndCallCallbacks envA "s").1 =
      Except.ok (scannedIds envA.rows) ∧
    (getExpiredSessionsIdsAndCallCallbacks envA "s").2 =
      (processRows envA "s" [Except.ok "a", Except.error "badrow"]).2 ++
        Event.loadCall (mkCleanupSession envA "s" "b") true ::
          Event.logLoadErr "corrupt" :: (processRows envA "s" [Except.ok "c"]).2 ∧
    (∀ s ∈ callbackSessions (deleteExpiredSessions envA "s").2, s.ID ≠ "b") ∧
    ((∀ x ∈ scannedIds envA.rows, envA.deleteRes x = none) →
      Event.deleteExec "b" ∈ (deleteExpiredSessions envA "s").2) :=
  C4_load_error_still_deleted envA "s" "b" "corrupt"
    [Except.ok "a", Except.error "badrow"] [Except.ok "c"] rfl rfl rfl rfl

/-- C8: the sessions passed to `load` during a sweep are exactly, in row
order, the fresh sessions for the scanned ids, each loaded with the
`true` (bypass-expiry-check) flag; each such session is scoped to the
sweep's session name, carries the scanned id, an empty bag, and the six
option fields copied from the store's default options; and a successful load
changes neither identifier, name nor options of the session handed to the
callback (src/cleanup.go lines 80-91). -/
theorem C8_fresh_session_for_load (env : Env) (n : String)
    (hp : env.prepareErr = none) (hq : env.queryErr = none) :
    loadCalls (deleteExpiredSessions env n).2 =
      (scannedIds env.rows).map (fun id => (mkCleanupSession env n id, true)) ∧
    (∀ id : String,
      (mkCleanupSession env n id).ID = id ∧
      (mkCleanupSession env n id).name = n ∧
      (mkCleanupSession env n id).Values = [] ∧
      (mkCleanupSession env n id).Options.Path = env.options.Path ∧
      (mkCleanupSession env n id).Options.MaxAge = env.options.MaxAge ∧
      (mkCleanupSession env n id).Options.HttpOnly = env.options.HttpOnly ∧
      (mkCleanupSession env n id).Options.Secure = env.options.Secure ∧
      (mkCleanupSession env n id).Options.Domain = env.options.Domain ∧
      (mkCleanupSession env n id).Options.SameSite = env.options.SameSite) ∧
    (∀ id : String,
      (loadedSession env n id).ID = id ∧
      (loadedSession env n id).name = n ∧
      (loadedSession env n id).Options = (mkCleanupSession env n id).Options) := by
  refine ⟨?_, ?_, ?_⟩
  · rw [deleteExpiredSessions_select_ok env n hp hq]
    simp only [loadCalls_append, loadCalls_execDeletes, List.append_nil]
    exact loadCalls_processRows env n env.rows
  · intro id
    exact ⟨rfl, rfl, rfl, rfl, rfl, rfl, rfl, rfl, rfl⟩
  · intro id
    exact ⟨loadedSession_ID env n id, loadedSession_name env n id,
      loadedSession_Options env n id⟩

/-- Witness for C8 at `envA`. -/
theorem C8_witness :
    loadCalls (deleteExpiredSessions envA "s").2 =
      (scannedIds envA.rows).map (fun id => (mkCleanupSession envA "s" id, true)) ∧
    (mkCleanupSession envA "s" "a").ID = "a" ∧
    (mkCleanupSession envA "s" "a").name = "s" ∧
    (mkCleanupSession envA "s" "a").Options.Path = envA.options.Path ∧
    (loadedSession envA "s" "a").ID = "a" :=
  ⟨(C8_fresh_session_for_load envA "s" rfl rfl).1,
   ((C8_fresh_session_for_load envA "s" rfl rfl).2.1 "a").1,
   ((C8_fresh_session_for_load envA "s" rfl rfl).2.1 "a").2.1,
   ((C8_fresh_session_for_load envA "s" rfl rfl).2.1 "a").2.2.2.1,
   ((C8_fresh_session_for_load envA "s" rfl rfl).2.2 "a").1⟩

/-- C1: with a callback registered and a successful select, the sessions
passed to the callback are exactly, in row order, the loaded sessions of the
successfully-loaded scanned ids — one invocation per such row, each carrying
that row's id — and every callback invocation in the sweep's trace comes
strictly before every delete execution (src/cleanup.go lines 96-100,
107-119). -/
theorem C1_callback_once_before_delete (env : Env) (n : String)
    (hp : env.prepareErr = none) (hq : env.queryErr = none)
    (hcb : env.hasCallback = true) :
    callbackSessions (deleteExpiredSessions env n).2 =
      (okLoadedIds env env.rows).map (loadedSession env n) ∧
    (∀ id : String, (loadedSession env n id).ID = id) ∧
    (∀ (i j : Nat) (s : Session) (id : String),
      ((deleteExpiredSessions env n).2)[i]? = some (Event.callbackCall s) →
      ((deleteExpiredSessions env n).2)[j]? = some (Event.deleteExec id) →
      i < j) := by
  refine ⟨?_, fun id => loadedSession_ID env n id, ?_⟩
  · rw [deleteExpiredSessions_select_ok env n hp hq]
    simp only [callbackSessions_append, callbackSessions_execDeletes,
      List.append_nil]
    exact callbackSessions_processRows env n hcb env.rows
  · intro i j s id hci hdj
    rw [deleteExpiredSessions_select_ok env n hp hq] at hci hdj
    simp only at hci hdj
    refine append_blocks_lt (processRows env n env.rows).2
      (execDeletes env (scannedIds env.rows)).2
      (fun ev => ∃ s0, ev = Event.callbackCall s0)
      (fun ev => ∃ id0, ev = Event.deleteExec id0)
      ?_ ?_ hci hdj ⟨s, rfl⟩ ⟨id, rfl⟩
    · rintro a ha ⟨s0, rfl⟩
      have hd := execDeletes_all_delete env (scannedIds env.rows) _ ha
      simp [Event.isDelete] at hd
    · rintro a ha ⟨id0, rfl⟩
      have hd := processRows_no_delete env n env.rows _ ha
      simp [Event.isDelete] at hd

/-- Witness for C1 at `envA` ("a" and "c" load, "b" does not). -/
theorem C1_witness :
    callbackSessions (deleteExpiredSessions envA "s").2 =
      (okLoadedIds envA envA.rows).map (loadedSession envA "s") ∧
    (∀ id : String, (loadedSession envA "s" id).ID = id) ∧
    (∀ (i j : Nat) (s : Session) (id : String),
      ((deleteExpiredSessions envA "s").2)[i]? = some (Event.callbackCall s) →
      ((deleteExpiredSessions envA "s").2)[j]? = some (Event.deleteExec id) →
      i < j) :=
  C1_callback_once_before_delete envA "s" rfl rfl rfl

/-- A loop state with both a quit signal and a tick pending. -/
def loopS0 : LoopState :=
  { quitPending := true
    tickPending := true
    tickerStopped := false
    doneSent := 0
    terminated := false
    errorsLogged := 0
    sweepsRun := 0 }

/-- Counterexample to C2 as stated: from a state where a quit signal and a
tick are both pending, Go's `select` may choose the tick case (it picks
among ready cases pseudo-randomly; src/cleanup.go lines 34-45 contain no
priority mechanism), so a legal step of the loop runs a sweep instead of
handling the quit: it does not terminate, does not stop the ticker and
sends no acknowledgment on done. -/
theorem C2_counterexample :
    loopS0.quitPending = true ∧ loopS0.tickPending = true ∧
    CleanupStep "s" loopS0 (tickResult envA "s" loopS0) ∧
    (tickResult envA "s" loopS0).terminated = false ∧
    (tickResult envA "s" loopS0).tickerStopped = false ∧
    (tickResult envA "s" loopS0).doneSent = loopS0.doneSent ∧
    (tickResult envA "s" loopS0).sweepsRun = loopS0.sweepsRun + 1 :=
  ⟨rfl, rfl, CleanupStep.tick envA rfl rfl, rfl, rfl, rfl, rfl⟩

/-- C2 amended: when both a quit signal and a tick are pending, one `select`
iteration of the cleanup loop handles exactly one of the two,
nondeterministically: either the quit case — ticker stopped, exactly one
acknowledgment sent on done, loop terminated, no sweep run — or the tick
case — one sweep run, loop not terminated, and the quit signal left pending
for a later iteration.  A pending tick may preempt a pending quit, but never
consumes it (src/cleanup.go lines 33-46). -/
theorem C2_amended_select_nondet (n : String) (s s' : LoopState)
    (h : CleanupStep n s s')
    (hq : s.quitPending = true) (ht : s.tickPending = true) :
    (s'.terminated = true ∧ s'.tickerStopped = true ∧
     s'.doneSent = s.doneSent + 1 ∧ s'.sweepsRun = s.sweepsRun) ∨
    (s'.terminated = false ∧ s'.quitPending = true ∧
     s'.doneSent = s.doneSent ∧ s'.sweepsRun = s.sweepsRun + 1) := by
  cases h with
  | quit hterm hqp => exact Or.inl ⟨rfl, rfl, rfl, rfl⟩
  | tick env hterm htp => exact Or.inr ⟨hterm, hq, rfl, rfl⟩

/-- Witness for the amended C2: the tick choice at `loopS0`. -/
theorem C2_amended_witness :
    ((tickResult envA "s" loopS0).terminated = true ∧
     (tickResult envA "s" loopS0).tickerStopped = true ∧
     (tickResult envA "s" loopS0).doneSent = loopS0.doneSent + 1 ∧
     (tickResult envA "s" loopS0).sweepsRun = loopS0.sweepsRun) ∨
    ((tickResult envA "s" loopS0).terminated = false ∧
     (tickResult envA "s" loopS0).quitPending = true ∧
     (tickResult envA "s" loopS0).doneSent = loopS0.doneSent ∧
     (tickResult envA "s" loopS0).sweepsRun = loopS0.sweepsRun + 1) :=
  C2_amended_select_nondet "s" loopS0 (tickResult envA "s" loopS0)
    (CleanupStep.tick envA rfl rfl) rfl rfl

/-- C9: a tick whose sweep returns an error logs it and the loop continues:
the step leaves the loop unterminated, sends nothing on done (so nothing
reaches the caller of `StartCleanup`, whose channels are the loop's only
outward interface), increments the count of logged errors by one, runs
exactly one sweep, and from the successor state any later pending tick can
still step and run its sweep (src/cleanup.go lines 39-46). -/
theorem C9_sweep_error_only_logged (n : String) (env : Env) (s : LoopState)
    (e : Err)
    (hterm : s.terminated = false) (ht : s.tickPending = true)
    (herr : (deleteExpiredSessions env n).1 = Except.error e) :
    CleanupStep n s (tickResult env n s) ∧
    (tickResult env n s).terminated = false ∧
    (tickResult env n s).doneSent = s.doneSent ∧
    (tickResult env n s).errorsLogged = s.errorsLogged + 1 ∧
    (tickResult env n s).sweepsRun = s.sweepsRun + 1 ∧
    ∀ env' : Env,
      CleanupStep n { tickResult env n s with tickPending := true }
        (tickResult env' n { tickResult env n s with tickPending := true }) := by
  refine ⟨CleanupStep.tick env hterm ht, hterm, rfl, ?_, rfl, ?_⟩
  · simp [tickResult, herr]
  · intro env'
    exact CleanupStep.tick env' hterm rfl

/-- Witness for C9: a tick at `loopS0` against `envPrep`, whose sweep fails
with the prepare error "pe". -/
theorem C9_witness :
    CleanupStep "s" loopS0 (tickResult envPrep "s" loopS0) ∧
    (tickResult envPrep "s" loopS0).terminated = false ∧
    (tickResult envPrep "s" loopS0).doneSent = loopS0.doneSent ∧
    (tickResult envPrep "s" loopS0).errorsLogged = loopS0.errorsLogged + 1 ∧
    (tickResult envPrep "s" loopS0).sweepsRun = loopS0.sweepsRun + 1 ∧
    (∀ env' : Env,
      CleanupStep "s" { tickResult envPrep "s" loopS0 with tickPending := true }
        (tickResult env' "s" { tickResult envPrep "s" loopS0 with tickPending := true })) :=
  C9_sweep_error_only_logged "s" envPrep loopS0 "pe" rfl rfl rfl
